import Mathlib

/-!
Shallow embedding of the prompt-construction and response-handling pipeline of
`src/requestCreator.py` (a Streamlit script around a remote text-generation API).

The script's pure logic is translated directly:
* `get_gemini_response` — the try/except around the single remote call; the
  remote call's behaviour (return or which exception is raised) is a parameter.
* the three prompt builders (`full_prompt`, `analysis_full_prompt`,
  `erp_full_prompt`) built with `"\n".join` (modelled by `joinSep`);
* the per-tab button/chat handlers as state transitions on the session state
  (the three histories plus `current_file_name`), together with the UI effects
  they emit (warnings, errors, markdown, and the remote call itself);
* the upload handler's parse-then-reset sequence;
* the Swagger-editor routing decision (`editor_tab`), including Python's
  `urllib.parse.quote` over the UTF-8 bytes of the specification text.
-/

namespace RequestCreator

/-- Generic YAML tree, the result of `yaml.safe_load`. The script never
inspects it (only `string_data` is used downstream), but it is in scope in
every tab, so the editor routing takes it as an argument to make the
independence from the parsed tree provable. -/
inductive Yaml where
  | null
  | str (s : String)
  | seq (items : List Yaml)
  | table (entries : List (String × Yaml))

/-- One turn of the analysis chat: an entry of `st.session_state.analysis_history`. -/
structure ChatMessage where
  role : String
  content : String
deriving DecidableEq

/-- One entry of `st.session_state.generate_history`. -/
structure GenEntry where
  prompt : String
  response : String
deriving DecidableEq

/-- One entry of `st.session_state.erp_history`. -/
structure ErpEntry where
  prompt : String
  language : String
  response : String
deriving DecidableEq

/-- The session state the handlers read and mutate: the last-seen uploaded
file name and the three per-task histories. -/
structure SessionState where
  current_file_name : Option String
  generate_history : List GenEntry
  analysis_history : List ChatMessage
  erp_history : List ErpEntry
deriving DecidableEq

/-- Observable effects of one handler run: Streamlit display calls and the
remote generation call itself. -/
inductive Effect where
  | warn (msg : String)
  | showError (msg : String)
  | showException (err : String)
  | showSuccess (msg : String)
  | showMarkdown (text : String)
  | remoteCall (prompt : String)
deriving DecidableEq

/-- Behaviour of the remote `model.generate_content` call: it either returns
text or raises one of the exceptions the script catches. -/
inductive RemoteBehavior where
  | returns (text : String)
  | resourceExhausted (err : String)
  | notFound (err : String)
  | otherError (err : String)
deriving DecidableEq

/-- True on the three exception behaviours, false on a successful return. -/
def RemoteBehavior.isFailure : RemoteBehavior → Bool
  | .returns _ => false
  | _ => true

/-- The classified result of one remote generation call (spec-level sum type). -/
inductive GenerationOutcome where
  | Success (text : String)
  | RateLimited (msg : String)
  | NotFound (msg : String)
  | OtherError (msg : String)
deriving DecidableEq

/-- User-facing message of the `ResourceExhausted` branch of `get_gemini_response`. -/
def rateLimitMessage : String :=
  "API rate limit exceeded. Please wait a moment and try again. This is common on the free tier. See the link in the error details for more information on quotas."

/-- User-facing message of the `NotFound` branch of `get_gemini_response`,
naming the selected model. -/
def notFoundMessage (model_name : String) : String :=
  "The selected model `" ++ model_name ++ "` was not found for your API key or region. This can happen if the model is not available in your region. Please try selecting a different model from the dropdown."

/-- User-facing message of the catch-all branch of `get_gemini_response`,
wrapping the raw error text. -/
def otherErrorMessage (err : String) : String :=
  "An unexpected error occurred while generating the response: " ++ err

/-- Translation of `get_gemini_response`: returns the Python pair
`(response_text_or_None, error_or_None)` where the error carries the message
and, in the rate-limit branch only, the exception object passed to
`st.exception`. -/
def get_gemini_response (model_name : String) (b : RemoteBehavior) :
    Option String × Option (String × Option String) :=
  match b with
  | .returns t => (some t, none)
  | .resourceExhausted e => (none, some (rateLimitMessage, some e))
  | .notFound _ => (none, some (notFoundMessage model_name, none))
  | .otherError e => (none, some (otherErrorMessage e, none))

/-- The same try/except of `get_gemini_response`, read as the spec's
`GenerationClient.generate` classification into the `GenerationOutcome` sum:
each `except` clause corresponds to one failure constructor. -/
def GenerationClient.generate (model_name : String) (b : RemoteBehavior) :
    GenerationOutcome :=
  match b with
  | .returns t => .Success t
  | .resourceExhausted _ => .RateLimited rateLimitMessage
  | .notFound _ => .NotFound (notFoundMessage model_name)
  | .otherError e => .OtherError (otherErrorMessage e)

/-- Python's `sep.join(parts)`. -/
def joinSep (sep : String) : List String → String
  | [] => ""
  | [x] => x
  | x :: y :: xs => x ++ sep ++ joinSep sep (y :: xs)

/-- Prompt of the Generate tab (`full_prompt`, built from `full_prompt_parts`). -/
def full_prompt (string_data user_prompt : String) : String :=
  joinSep "\n" [
    "You are an expert API assistant. Based on the following OpenAPI 3.0 specification, generate a valid JSON request body for the operation that matches the user's request.",
    "",
    "OpenAPI Specification:",
    "```yaml",
    string_data,
    "```",
    "User Request: Generate a request for the operation: \"" ++ user_prompt ++ "\"",
    "",
    "Generate only the JSON request body with realistic example values. If the operation does not have a request body (e.g., for a GET request), list its parameters (path, query) and example values in JSON format."
  ]

/-- Serialization of one chat turn inside `history_context`:
the f-string `**{role}**: {content}`. -/
def serializeTurn (m : ChatMessage) : String :=
  "**" ++ m.role ++ "**: " ++ m.content

/-- The `history_context` string of the analyze tab: every turn of the
analysis history serialized in order, joined by newlines. -/
def history_context (history : List ChatMessage) : String :=
  joinSep "\n" (history.map serializeTurn)

/-- Prompt of the Analyze tab (`analysis_full_prompt`); `history` is the value
of `analysis_history` at build time, which already ends with the new user turn. -/
def analysis_full_prompt (string_data : String) (history : List ChatMessage) : String :=
  joinSep "\n" [
    "You are an expert API assistant. Your task is to analyze the provided OpenAPI 3.0 specification and answer the user's questions about it in a clear and concise way.",
    "You must maintain a conversational context based on the chat history provided.",
    "",
    "OpenAPI Specification:",
    "```yaml",
    string_data,
    "```",
    "---",
    "Chat History:",
    history_context history,
    "---"
  ]

/-- Prompt of the ERP tab (`erp_full_prompt`). -/
def erp_full_prompt (string_data erp_prompt erp_language : String) : String :=
  joinSep "\n" [
    "You are a world-class ERP integration specialist. Your task is to write integration code that connects a system described by an OpenAPI specification to an ERP system.",
    "The user wants to generate code in '" ++ erp_language ++ "'.",
    "",
    "Based on the following OpenAPI 3.0 specification, write a code snippet that accomplishes the user's goal.",
    "OpenAPI Specification:",
    "```yaml",
    string_data,
    "```",
    "User's Goal: \"" ++ erp_prompt ++ "\"",
    "",
    "Provide a complete, well-commented code snippet that is ready to be used. Explain the purpose of the code and any prerequisites (like libraries to install)."
  ]

/-- Task selector plus the task-specific user input, as in the spec's
`PromptBuilder.build(task, specText, input, history?)`. -/
inductive TaskInput where
  | generate (userPrompt : String)
  | analyze (question : String)
  | erp (goal targetLanguage : String)
deriving DecidableEq

/-- The spec's `PromptBuilder.build`, dispatching to the three prompt
builders of the script. For `analyze`, the history at build time is the
supplied history with the new question appended as a user turn, exactly as the
chat handler does. -/
def PromptBuilder.build (specText : String) (history : List ChatMessage) :
    TaskInput → String
  | .generate up => full_prompt specText up
  | .analyze q => analysis_full_prompt specText (history ++ [⟨"user", q⟩])
  | .erp g l => erp_full_prompt specText g l

/-- The Generate tab's button handler. Returns the new session state and the
effects emitted. The `(none, none)` case of the result pair is unreachable:
`get_gemini_response` never returns it. -/
def generate_click (st : SessionState) (string_data model_name user_prompt : String)
    (b : RemoteBehavior) : SessionState × List Effect :=
  if user_prompt = "" then
    (st, [.warn "Please describe the request you want to generate."])
  else
    let fp := full_prompt string_data user_prompt
    match get_gemini_response model_name b with
    | (_, some err) =>
      (st, [.remoteCall fp, .showError err.1] ++
        (match err.2 with
         | some e2 => [.showException e2]
         | none => []))
    | (some t, none) =>
      ({ st with generate_history := st.generate_history ++ [⟨user_prompt, t⟩] },
       [.remoteCall fp])
    | (none, none) => (st, [.remoteCall fp])

/-- The Analyze tab's chat handler. The user's turn is appended to the
analysis history before the remote call; on failure only the error is shown
(the user turn stays); on success the assistant turn is appended. -/
def analysis_submit (st : SessionState) (string_data model_name analysis_prompt : String)
    (b : RemoteBehavior) : SessionState × List Effect :=
  let st1 := { st with analysis_history := st.analysis_history ++ [⟨"user", analysis_prompt⟩] }
  let ap := analysis_full_prompt string_data st1.analysis_history
  match get_gemini_response model_name b with
  | (_, some err) =>
    (st1, [.showMarkdown analysis_prompt, .remoteCall ap, .showError err.1])
  | (some t, none) =>
    ({ st1 with analysis_history := st1.analysis_history ++ [⟨"assistant", t⟩] },
     [.showMarkdown analysis_prompt, .remoteCall ap, .showMarkdown t])
  | (none, none) => (st1, [.showMarkdown analysis_prompt, .remoteCall ap])

/-- The ERP tab's button handler, with its non-empty validation of both the
goal and the language. -/
def erp_click (st : SessionState) (string_data model_name erp_prompt erp_language : String)
    (b : RemoteBehavior) : SessionState × List Effect :=
  if erp_prompt = "" ∨ erp_language = "" then
    (st, [.warn "Please describe the integration logic and specify the language/system."])
  else
    let fp := erp_full_prompt string_data erp_prompt erp_language
    match get_gemini_response model_name b with
    | (_, some err) => (st, [.remoteCall fp, .showError err.1])
    | (some t, none) =>
      ({ st with erp_history := st.erp_history ++ [⟨erp_prompt, erp_language, t⟩] },
       [.remoteCall fp])
    | (none, none) => (st, [.remoteCall fp])

/-- One user-triggered generation action: which tab's handler fires, with its
task-specific input. -/
inductive UserAction where
  | generateClick (user_prompt : String)
  | analyzeSubmit (question : String)
  | erpClick (goal language : String)
deriving DecidableEq

/-- Dispatch of one user action to its handler. The analyze chat block only
runs when `st.chat_input` returned non-empty text (the walrus `if`), so an
empty question is a no-op. -/
def run_action (st : SessionState) (string_data model_name : String) (a : UserAction)
    (b : RemoteBehavior) : SessionState × List Effect :=
  match a with
  | .generateClick up => generate_click st string_data model_name up b
  | .analyzeSubmit q =>
    if q = "" then (st, []) else analysis_submit st string_data model_name q b
  | .erpClick g l => erp_click st string_data model_name g l b

/-- The upload handler: decode+parse, and only on success the history-reset
block (clear all three histories and update `current_file_name` when the file
name differs from the last-seen one). A `yaml.YAMLError` aborts the action
before the reset block, leaving the whole session state unchanged. -/
def upload_handler (st : SessionState) (fileName : String)
    (parseResult : Except String Yaml) : SessionState × List Effect :=
  match parseResult with
  | .error e => (st, [.showError ("Error parsing YAML file: " ++ e)])
  | .ok _ =>
    let st' :=
      if some fileName ≠ st.current_file_name then
        { current_file_name := some fileName,
          generate_history := [],
          analysis_history := [],
          erp_history := [] }
      else st
    (st', [.showSuccess "OpenAPI specification loaded and parsed successfully!"])

/-- UTF-8 encoding of one Unicode code point (the byte sequence
`chr(v).encode('utf-8')`), written with division and remainder so the byte
values are plain arithmetic. -/
def utf8EncodeCp (v : Nat) : List Nat :=
  if v < 0x80 then [v]
  else if v < 0x800 then [0xC0 + v / 0x40, 0x80 + v % 0x40]
  else if v < 0x10000 then [0xE0 + v / 0x1000, 0x80 + v / 0x40 % 0x40, 0x80 + v % 0x40]
  else [0xF0 + v / 0x40000, 0x80 + v / 0x1000 % 0x40, 0x80 + v / 0x40 % 0x40, 0x80 + v % 0x40]

/-- UTF-8 encoding of a sequence of code points. -/
def utf8EncodeCps : List Nat → List Nat
  | [] => []
  | v :: vs => utf8EncodeCp v ++ utf8EncodeCps vs

/-- UTF-8 bytes of a string: Python's `s.encode('utf-8')`. -/
def utf8EncodeString (s : String) : List Nat :=
  utf8EncodeCps (s.data.map Char.toNat)

/-- Byte length of a string's UTF-8 encoding: `len(s.encode('utf-8'))`. -/
def utf8ByteLength (s : String) : Nat :=
  (utf8EncodeString s).length

/-- State of a byte-at-a-time UTF-8 decoder: either between characters, or
inside a multi-byte sequence with the partial value `acc`, the number of
continuation bytes still expected `need`, and the smallest non-overlong value
`low` for the current sequence length. -/
inductive Utf8State where
  | clean
  | pending (acc need low : Nat)

/-- Byte-at-a-time UTF-8 decoding of a byte sequence back to code points,
rejecting stray continuation bytes, truncated sequences, overlong forms and
out-of-range values. -/
def utf8DecodeAux : Utf8State → List Nat → Option (List Nat)
  | .clean, [] => some []
  | .pending _ _ _, [] => none
  | .clean, b :: bs =>
    if b < 0x80 then (utf8DecodeAux .clean bs).map fun vs => b :: vs
    else if b < 0xC2 then none
    else if b < 0xE0 then utf8DecodeAux (.pending (b - 0xC0) 1 0x80) bs
    else if b < 0xF0 then utf8DecodeAux (.pending (b - 0xE0) 2 0x800) bs
    else if b < 0xF5 then utf8DecodeAux (.pending (b - 0xF0) 3 0x10000) bs
    else none
  | .pending acc need low, b :: bs =>
    if 0x80 ≤ b ∧ b < 0xC0 then
      if need = 1 then
        let v := acc * 0x40 + (b - 0x80)
        if low ≤ v ∧ v < 0x110000 then
          (utf8DecodeAux .clean bs).map fun vs => v :: vs
        else none
      else utf8DecodeAux (.pending (acc * 0x40 + (b - 0x80)) (need - 1) low) bs
    else none

/-- UTF-8 decoding of a byte sequence back to code points. -/
def utf8DecodeCps (bs : List Nat) : Option (List Nat) :=
  utf8DecodeAux .clean bs

/-- Conversion of decoded code points to characters, rejecting invalid scalar
values. -/
def cpsToChars : List Nat → Option (List Char)
  | [] => some []
  | v :: vs =>
    if Nat.isValidChar v then (cpsToChars vs).map fun cs => Char.ofNat v :: cs
    else none

/-- UTF-8 decoding of a byte sequence to a string. -/
def utf8DecodeToString (bs : List Nat) : Option String :=
  (utf8DecodeCps bs).bind fun cps => (cpsToChars cps).map fun cs => String.mk cs

/-- Bytes `urllib.parse.quote` leaves unencoded with its default `safe='/'`:
letters, digits, `_`, `.`, `-`, `~` and `/`. -/
def isSafeByte (b : Nat) : Bool :=
  (0x30 ≤ b && b ≤ 0x39) || (0x41 ≤ b && b ≤ 0x5A) || (0x61 ≤ b && b ≤ 0x7A) ||
  b == 0x2D || b == 0x2E || b == 0x5F || b == 0x7E || b == 0x2F

/-- Uppercase hexadecimal digit character of a value below 16. -/
def hexDigitChar (n : Nat) : Char :=
  if n < 10 then Char.ofNat (0x30 + n) else Char.ofNat (0x37 + n)

/-- Percent-encoding of a byte sequence: safe bytes stand for themselves,
every other byte becomes a three-character escape. -/
def quoteBytes : List Nat → List Char
  | [] => []
  | b :: bs =>
    (if isSafeByte b then [Char.ofNat b]
     else ['%', hexDigitChar (b / 16), hexDigitChar (b % 16)]) ++ quoteBytes bs

/-- Python's `urllib.parse.quote(s)`: percent-encode the UTF-8 bytes of `s`. -/
def urlQuote (s : String) : String :=
  String.mk (quoteBytes (utf8EncodeString s))

/-- Value of one hexadecimal digit character, upper or lower case. -/
def hexVal (c : Char) : Option Nat :=
  if 0x30 ≤ c.toNat ∧ c.toNat ≤ 0x39 then some (c.toNat - 0x30)
  else if 0x41 ≤ c.toNat ∧ c.toNat ≤ 0x46 then some (c.toNat - 0x37)
  else if 0x61 ≤ c.toNat ∧ c.toNat ≤ 0x66 then some (c.toNat - 0x57)
  else none

/-- Percent-decoding of a character sequence to bytes: a strict inverse of
`quoteBytes` that rejects malformed escapes. -/
def percentDecodeChars : List Char → Option (List Nat)
  | [] => some []
  | c :: rest =>
    if c = '%' then
      match rest with
      | h :: l :: rest' =>
        (hexVal h).bind fun hv =>
          (hexVal l).bind fun lv =>
            (percentDecodeChars rest').map fun bs => (hv * 16 + lv) :: bs
      | _ => none
    else (percentDecodeChars rest).map fun bs => c.toNat :: bs

/-- Percent-decode a string and interpret the resulting bytes as UTF-8 text. -/
def percentDecodeToText (s : String) : Option String :=
  (percentDecodeChars s.data).bind utf8DecodeToString

/-- Result of the editor tab's routing decision: either a complete editor URL
with the spec embedded, or the requirement of an externally hosted URL. -/
inductive RouteResult where
  | EmbedDirect (url : String)
  | RequireExternalUrl
deriving DecidableEq

/-- True exactly on the direct-embedding result. -/
def isEmbedDirect : RouteResult → Bool
  | .EmbedDirect _ => true
  | .RequireExternalUrl => false

/-- The editor tab's routing decision (`editor_tab`): direct URL embedding of
the percent-encoded spec when its UTF-8 byte length is below 4096, otherwise
require a Gist URL. The parsed tree, though in scope, plays no part. -/
def editor_route (string_data : String) (_spec : Yaml) : RouteResult :=
  if utf8ByteLength string_data < 4096 then
    .EmbedDirect ("https://editor-next.swagger.io/?spec=" ++ urlQuote string_data)
  else
    .RequireExternalUrl

/-- Unfolding of `joinSep` on a cons with a non-empty tail. -/
theorem joinSep_cons (sep a : String) (l : List String) (h : l ≠ []) :
    joinSep sep (a :: l) = a ++ sep ++ joinSep sep l := by
  cases l with
  | nil => exact absurd rfl h
  | cons z t => rfl

/-- Joining a non-empty list with one more element appended. -/
theorem joinSep_snoc (sep x : String) (l : List String) (h : l ≠ []) :
    joinSep sep (l ++ [x]) = joinSep sep l ++ sep ++ x := by
  induction l with
  | nil => exact absurd rfl h
  | cons y t ih =>
    cases t with
    | nil => simp [joinSep]
    | cons z t' =>
      rw [List.cons_append, joinSep_cons sep y ((z :: t') ++ [x]) (by simp),
        ih (by simp), joinSep_cons sep y (z :: t') (by simp)]
      simp [String.append_assoc]

/-- Any element of a joined list appears verbatim in the join. -/
theorem joinSep_mem_split (sep : String) (l1 l2 : List String) (x : String) :
    ∃ pre post, joinSep sep (l1 ++ x :: l2) = pre ++ x ++ post := by
  induction l1 with
  | nil =>
    cases l2 with
    | nil => exact ⟨"", "", by simp [joinSep]⟩
    | cons z t =>
      exact ⟨"", sep ++ joinSep sep (z :: t), by
        rw [List.nil_append, joinSep_cons sep x (z :: t) (by simp)]
        simp [String.append_assoc]⟩
  | cons y t ih =>
    obtain ⟨pre, post, hp⟩ := ih
    refine ⟨y ++ sep ++ pre, post, ?_⟩
    rw [List.cons_append, joinSep_cons sep y (t ++ x :: l2) (by simp), hp]
    simp [String.append_assoc]

/-- Claim C10: an uploaded file that fails YAML parsing aborts the upload
action before the history-reset step: the last-seen file identifier and all
three task histories are left exactly as they were, and only the parse error
is shown. -/
theorem upload_parse_failure_preserves_state (st : SessionState) (fileName e : String) :
    upload_handler st fileName (.error e) =
      (st, [Effect.showError ("Error parsing YAML file: " ++ e)]) := rfl

/-- Claim C6: the upload reset is keyed on file-name equality. A new file
identifier different from the last-seen one clears all three task histories
atomically and updates the identifier; an identical identifier leaves the
session state (hence all three histories, in length and content) unchanged. -/
theorem reset_keyed_on_file_name (st : SessionState) (fileName : String) (tree : Yaml) :
    (some fileName ≠ st.current_file_name →
      (upload_handler st fileName (.ok tree)).1 =
        { current_file_name := some fileName, generate_history := [],
          analysis_history := [], erp_history := [] }) ∧
    (some fileName = st.current_file_name →
      (upload_handler st fileName (.ok tree)).1 = st) := by
  constructor
  · intro h
    simp [upload_handler, h]
  · intro h
    simp [upload_handler, h]

/-- Witness for C6: a first upload (no last-seen identifier) installs the new
identifier and empty histories. -/
theorem reset_keyed_on_file_name_witness :
    (upload_handler
        { current_file_name := none, generate_history := [],
          analysis_history := [⟨"user", "hi"⟩], erp_history := [] }
        "pets.yaml" (.ok .null)).1 =
      { current_file_name := some "pets.yaml", generate_history := [],
        analysis_history := [], erp_history := [] } :=
  (reset_keyed_on_file_name _ "pets.yaml" .null).1 (by simp)

/-- Claim C7: an ERP action with an empty goal or an empty target language is
rejected with a validation warning before the generation client is invoked:
the session state is returned unchanged (so no history entry is appended) and
no remote call effect is emitted. -/
theorem erp_empty_input_rejected (st : SessionState)
    (string_data model_name goal language : String) (b : RemoteBehavior)
    (h : goal = "" ∨ language = "") :
    run_action st string_data model_name (.erpClick goal language) b =
      (st, [Effect.warn "Please describe the integration logic and specify the language/system."]) ∧
    ∀ p, Effect.remoteCall p ∉
      (run_action st string_data model_name (.erpClick goal language) b).2 := by
  have hrun : run_action st string_data model_name (.erpClick goal language) b =
      (st, [Effect.warn "Please describe the integration logic and specify the language/system."]) := by
    simp only [run_action, erp_click, if_pos h]
  refine ⟨hrun, ?_⟩
  intro p
  rw [hrun]
  simp

/-- Witness for C7: empty goal with a non-empty language is rejected. -/
theorem erp_empty_input_rejected_witness :
    run_action
      { current_file_name := some "pets.yaml", generate_history := [],
        analysis_history := [], erp_history := [] }
      "openapi: 3.0.0" "models/gemini-pro" (.erpClick "" "Python") (.returns "code") =
      ({ current_file_name := some "pets.yaml", generate_history := [],
         analysis_history := [], erp_history := [] },
        [Effect.warn "Please describe the integration logic and specify the language/system."]) :=
  (erp_empty_input_rejected _ _ _ _ _ _ (Or.inl rfl)).1

/-- Claim C5: the generation client classifies every outcome of the single
remote call. A resource-exhausted exception yields `RateLimited` with the
free-tier-quota message; a model-not-found exception yields `NotFound` with a
message naming the offending model and suggesting another; any other
exception yields `OtherError` carrying the raw error text; a successful call
yields `Success` with the raw model output unmodified. -/
theorem generate_classifies_outcomes (model_name : String) (b : RemoteBehavior) :
    (∀ t, b = .returns t →
      GenerationClient.generate model_name b = .Success t) ∧
    (∀ e, b = .resourceExhausted e →
      GenerationClient.generate model_name b = .RateLimited rateLimitMessage ∧
      (∃ p q, rateLimitMessage = p ++ "free tier" ++ q) ∧
      (∃ p q, rateLimitMessage = p ++ "quota" ++ q)) ∧
    (∀ e, b = .notFound e →
      GenerationClient.generate model_name b = .NotFound (notFoundMessage model_name) ∧
      (∃ p q, notFoundMessage model_name = p ++ model_name ++ q) ∧
      (∃ p q, notFoundMessage model_name = p ++ "selecting a different model" ++ q)) ∧
    (∀ e, b = .otherError e →
      GenerationClient.generate model_name b = .OtherError (otherErrorMessage e) ∧
      ∃ p, otherErrorMessage e = p ++ e) := by
  refine ⟨?_, ?_, ?_, ?_⟩
  · rintro t rfl
    rfl
  · rintro e rfl
    refine ⟨rfl, ?_, ?_⟩
    · exact ⟨"API rate limit exceeded. Please wait a moment and try again. This is common on the ",
        ". See the link in the error details for more information on quotas.", by decide⟩
    · exact ⟨"API rate limit exceeded. Please wait a moment and try again. This is common on the free tier. See the link in the error details for more information on ",
        "s.", by decide⟩
  · rintro e rfl
    refine ⟨rfl, ?_, ?_⟩
    · exact ⟨"The selected model `",
        "` was not found for your API key or region. This can happen if the model is not available in your region. Please try selecting a different model from the dropdown.",
        rfl⟩
    · refine ⟨"The selected model `" ++ model_name ++
        "` was not found for your API key or region. This can happen if the model is not available in your region. Please try ",
        " from the dropdown.", ?_⟩
      simp only [notFoundMessage, String.append_assoc]
      congr 2
  · rintro e rfl
    exact ⟨rfl, "An unexpected error occurred while generating the response: ", rfl⟩

/-- Witness for C5: a rate-limited call is classified as `RateLimited` with
the free-tier message. -/
theorem generate_classifies_outcomes_witness :
    GenerationClient.generate "models/gemini-pro" (.resourceExhausted "429") =
      .RateLimited rateLimitMessage ∧
    (∃ p q, rateLimitMessage = p ++ "free tier" ++ q) ∧
    (∃ p q, rateLimitMessage = p ++ "quota" ++ q) :=
  (generate_classifies_outcomes "models/gemini-pro"
    (.resourceExhausted "429")).2.1 "429" rfl

/-- Claim C9: prompt building is deterministic — byte-identical inputs give a
byte-identical prompt string. -/
theorem build_deterministic (specText specText' : String)
    (history history' : List ChatMessage) (inp inp' : TaskInput)
    (hs : specText = specText') (hh : history = history') (hi : inp = inp') :
    PromptBuilder.build specText history inp =
      PromptBuilder.build specText' history' inp' := by
  subst hs
  subst hh
  subst hi
  rfl

/-- Witness for C9 at a concrete input. -/
theorem build_deterministic_witness :
    PromptBuilder.build "openapi: 3.0.0" [] (.generate "add a pet") =
      PromptBuilder.build "openapi: 3.0.0" [] (.generate "add a pet") :=
  build_deterministic "openapi: 3.0.0" "openapi: 3.0.0" [] [] (.generate "add a pet")
    (.generate "add a pet") rfl rfl rfl

/-- Counterexample to C1 as stated: the analyze chat handler appends the
user's question to the analysis history before the remote call, so a
rate-limited call does append an entry — starting from empty histories, the
analysis history is non-empty afterwards. -/
theorem analyze_failure_appends_user_turn :
    (run_action
        { current_file_name := some "pets.yaml", generate_history := [],
          analysis_history := [], erp_history := [] }
        "openapi: 3.0.0" "models/gemini-pro"
        (.analyzeSubmit "What does this API do?")
        (.resourceExhausted "429")).1.analysis_history =
      [{ role := "user", content := "What does this API do?" }] ∧
    [ChatMessage.mk "user" "What does this API do?"] ≠ [] := by
  exact ⟨rfl, by simp⟩

/-- Claim C1 amended: a generation call that ends in failure never appends a
response entry to any history — the generate and ERP histories are exactly
unchanged, and the analysis history changes only by the user's question that
the analyze handler appends before the call (no assistant entry). -/
theorem failed_call_appends_no_response_entry (st : SessionState)
    (string_data model_name : String) (a : UserAction) (b : RemoteBehavior)
    (hb : b.isFailure = true) :
    (run_action st string_data model_name a b).1.generate_history =
      st.generate_history ∧
    (run_action st string_data model_name a b).1.erp_history = st.erp_history ∧
    (run_action st string_data model_name a b).1.analysis_history =
      st.analysis_history ++
        (match a with
         | .analyzeSubmit q => if q = "" then [] else [⟨"user", q⟩]
         | _ => []) := by
  cases b with
  | returns t => exact absurd hb (by simp [RemoteBehavior.isFailure])
  | resourceExhausted e =>
    cases a <;>
      simp [run_action, generate_click, analysis_submit, erp_click,
        get_gemini_response] <;> split_ifs <;> simp
  | notFound e =>
    cases a <;>
      simp [run_action, generate_click, analysis_submit, erp_click,
        get_gemini_response] <;> split_ifs <;> simp
  | otherError e =>
    cases a <;>
      simp [run_action, generate_click, analysis_submit, erp_click,
        get_gemini_response] <;> split_ifs <;> simp

/-- Witness for the amended C1: a not-found failure on the generate tab
leaves every history unchanged. -/
theorem failed_call_appends_no_response_entry_witness :
    (run_action
        { current_file_name := some "pets.yaml", generate_history := [],
          analysis_history := [], erp_history := [] }
        "openapi: 3.0.0" "models/gemini-pro"
        (.generateClick "add a pet") (.notFound "missing")).1.generate_history =
      ([] : List GenEntry) ∧
    (run_action
        { current_file_name := some "pets.yaml", generate_history := [],
          analysis_history := [], erp_history := [] }
        "openapi: 3.0.0" "models/gemini-pro"
        (.generateClick "add a pet") (.notFound "missing")).1.erp_history =
      ([] : List ErpEntry) ∧
    (run_action
        { current_file_name := some "pets.yaml", generate_history := [],
          analysis_history := [], erp_history := [] }
        "openapi: 3.0.0" "models/gemini-pro"
        (.generateClick "add a pet") (.notFound "missing")).1.analysis_history =
      [] ++ ([] : List ChatMessage) :=
  failed_call_appends_no_response_entry
    { current_file_name := some "pets.yaml", generate_history := [],
      analysis_history := [], erp_history := [] }
    "openapi: 3.0.0" "models/gemini-pro"
    (.generateClick "add a pet") (.notFound "missing") rfl

/-- Claim C4: for every task and every input, the built prompt contains the
specification text verbatim as a contiguous substring (no truncation, no
summarization). -/
theorem build_contains_spec_verbatim (specText : String) (history : List ChatMessage)
    (inp : TaskInput) :
    ∃ pre post, PromptBuilder.build specText history inp = pre ++ specText ++ post := by
  cases inp with
  | generate up =>
    simp only [PromptBuilder.build, full_prompt]
    exact joinSep_mem_split "\n"
      ["You are an expert API assistant. Based on the following OpenAPI 3.0 specification, generate a valid JSON request body for the operation that matches the user's request.",
       "",
       "OpenAPI Specification:",
       "```yaml"]
      ["```",
       "User Request: Generate a request for the operation: \"" ++ up ++ "\"",
       "",
       "Generate only the JSON request body with realistic example values. If the operation does not have a request body (e.g., for a GET request), list its parameters (path, query) and example values in JSON format."]
      specText
  | analyze q =>
    simp only [PromptBuilder.build, analysis_full_prompt]
    have h := joinSep_mem_split "\n"
      ["You are an expert API assistant. Your task is to analyze the provided OpenAPI 3.0 specification and answer the user's questions about it in a clear and concise way.",
       "You must maintain a conversational context based on the chat history provided.",
       "",
       "OpenAPI Specification:",
       "```yaml"]
      ["```",
       "---",
       "Chat History:",
       history_context (history ++ [⟨"user", q⟩]),
       "---"]
      specText
    simpa only [List.cons_append, List.nil_append] using h
  | erp g l =>
    simp only [PromptBuilder.build, erp_full_prompt]
    have h := joinSep_mem_split "\n"
      ["You are a world-class ERP integration specialist. Your task is to write integration code that connects a system described by an OpenAPI specification to an ERP system.",
       "The user wants to generate code in '" ++ l ++ "'.",
       "",
       "Based on the following OpenAPI 3.0 specification, write a code snippet that accomplishes the user's goal.",
       "OpenAPI Specification:",
       "```yaml"]
      ["```",
       "User's Goal: \"" ++ g ++ "\"",
       "",
       "Provide a complete, well-commented code snippet that is ready to be used. Explain the purpose of the code and any prerequisites (like libraries to install)."]
      specText
    simpa only [List.cons_append, List.nil_append] using h

/-- Splitting the analysis-history serialization around a newly appended turn. -/
theorem history_context_snoc (h : ChatMessage) (t : List ChatMessage) (m : ChatMessage) :
    history_context ((h :: t) ++ [m]) =
      history_context (h :: t) ++ "\n" ++ serializeTurn m := by
  show joinSep "\n" (((h :: t) ++ [m]).map serializeTurn) = _
  rw [List.map_append]
  have hm : List.map serializeTurn [m] = [serializeTurn m] := rfl
  rw [hm, joinSep_snoc "\n" (serializeTurn m) ((h :: t).map serializeTurn) (by simp)]
  rfl

/-- Claim C8: the analyze prompt serializes every prior turn (role and
content) in original order — the in-order serialization `history_context` of
the prior history appears in the prompt as conversational context before the
serialization of the new question. -/
theorem analysis_prompt_serializes_history (string_data question : String)
    (hist : List ChatMessage) :
    ∃ pre mid post,
      analysis_full_prompt string_data (hist ++ [⟨"user", question⟩]) =
        pre ++ history_context hist ++ mid ++
          serializeTurn ⟨"user", question⟩ ++ post := by
  obtain ⟨pre, post, hsplit⟩ := joinSep_mem_split "\n"
    ["You are an expert API assistant. Your task is to analyze the provided OpenAPI 3.0 specification and answer the user's questions about it in a clear and concise way.",
     "You must maintain a conversational context based on the chat history provided.",
     "",
     "OpenAPI Specification:",
     "```yaml",
     string_data,
     "```",
     "---",
     "Chat History:"]
    ["---"]
    (history_context (hist ++ [⟨"user", question⟩]))
  have key : analysis_full_prompt string_data (hist ++ [⟨"user", question⟩]) =
      pre ++ history_context (hist ++ [⟨"user", question⟩]) ++ post := hsplit
  cases hist with
  | nil =>
    refine ⟨pre, "", post, ?_⟩
    rw [key]
    show pre ++ history_context [⟨"user", question⟩] ++ post = _
    have h1 : history_context [ChatMessage.mk "user" question] =
        serializeTurn ⟨"user", question⟩ := rfl
    have h2 : history_context ([] : List ChatMessage) = "" := rfl
    rw [h1, h2, String.append_empty]
    simp [String.append_assoc]
  | cons h t =>
    refine ⟨pre, "\n", post, ?_⟩
    rw [key, history_context_snoc]
    simp [String.append_assoc]

/-- Decoding the UTF-8 encoding of one in-range code point peels it off the
front of the byte stream. -/
theorem utf8DecodeAux_encodeCp (v : Nat) (hv : v < 0x110000) (rest : List Nat) :
    utf8DecodeAux .clean (utf8EncodeCp v ++ rest) =
      (utf8DecodeAux .clean rest).map fun vs => v :: vs := by
  by_cases h1 : v < 0x80
  · rw [utf8EncodeCp, if_pos h1, List.cons_append, List.nil_append]
    simp [utf8DecodeAux, h1]
  · by_cases h2 : v < 0x800
    · rw [utf8EncodeCp, if_neg h1, if_pos h2]
      have cA : ¬(0xC0 + v / 0x40 < 0x80) := by omega
      have cB : ¬(0xC0 + v / 0x40 < 0xC2) := by omega
      have cC : 0xC0 + v / 0x40 < 0xE0 := by omega
      have cD : 0x80 ≤ 0x80 + v % 0x40 := by omega
      have cE : 0x80 + v % 0x40 < 0xC0 := by omega
      have e : (0xC0 + v / 0x40 - 0xC0) * 0x40 + (0x80 + v % 0x40 - 0x80) = v := by
        omega
      have e' : v / 0x40 * 0x40 + v % 0x40 = v := by omega
      have hO : 0x80 ≤ v := by omega
      simp [utf8DecodeAux, cA, cB, cC, cD, cE, e, e', hO, hv]
    · by_cases h3 : v < 0x10000
      · rw [utf8EncodeCp, if_neg h1, if_neg h2, if_pos h3]
        have cA : ¬(0xE0 + v / 0x1000 < 0x80) := by omega
        have cB : ¬(0xE0 + v / 0x1000 < 0xC2) := by omega
        have cC : ¬(0xE0 + v / 0x1000 < 0xE0) := by omega
        have cD : 0xE0 + v / 0x1000 < 0xF0 := by omega
        have cE : 0x80 ≤ 0x80 + v / 0x40 % 0x40 := by omega
        have cF : 0x80 + v / 0x40 % 0x40 < 0xC0 := by omega
        have cG : 0x80 ≤ 0x80 + v % 0x40 := by omega
        have cH : 0x80 + v % 0x40 < 0xC0 := by omega
        have e : ((0xE0 + v / 0x1000 - 0xE0) * 0x40 + (0x80 + v / 0x40 % 0x40 - 0x80)) * 0x40 +
            (0x80 + v % 0x40 - 0x80) = v := by omega
        have e' : (v / 0x1000 * 0x40 + v / 0x40 % 0x40) * 0x40 + v % 0x40 = v := by omega
        have hO : 0x800 ≤ v := by omega
        simp [utf8DecodeAux, cA, cB, cC, cD, cE, cF, cG, cH, e, e', hO, hv]
      · rw [utf8EncodeCp, if_neg h1, if_neg h2, if_neg h3]
        have cA : ¬(0xF0 + v / 0x40000 < 0x80) := by omega
        have cB : ¬(0xF0 + v / 0x40000 < 0xC2) := by omega
        have cC : ¬(0xF0 + v / 0x40000 < 0xE0) := by omega
        have cD : ¬(0xF0 + v / 0x40000 < 0xF0) := by omega
        have cE : 0xF0 + v / 0x40000 < 0xF5 := by omega
        have cF : 0x80 ≤ 0x80 + v / 0x1000 % 0x40 := by omega
        have cG : 0x80 + v / 0x1000 % 0x40 < 0xC0 := by omega
        have cH : 0x80 ≤ 0x80 + v / 0x40 % 0x40 := by omega
        have cI : 0x80 + v / 0x40 % 0x40 < 0xC0 := by omega
        have cJ : 0x80 ≤ 0x80 + v % 0x40 := by omega
        have cK : 0x80 + v % 0x40 < 0xC0 := by omega
        have e : (((0xF0 + v / 0x40000 - 0xF0) * 0x40 + (0x80 + v / 0x1000 % 0x40 - 0x80)) * 0x40 +
            (0x80 + v / 0x40 % 0x40 - 0x80)) * 0x40 + (0x80 + v % 0x40 - 0x80) = v := by omega
        have e' : ((v / 0x40000 * 0x40 + v / 0x1000 % 0x40) * 0x40 + v / 0x40 % 0x40) * 0x40 +
            v % 0x40 = v := by omega
        have hO : 0x10000 ≤ v := by omega
        simp [utf8DecodeAux, cA, cB, cC, cD, cE, cF, cG, cH, cI, cJ, cK, e, e', hO, hv]

/-- Decoding inverts encoding on any sequence of in-range code points. -/
theorem utf8DecodeCps_encodeCps (vs : List Nat) (hv : ∀ v ∈ vs, v < 0x110000) :
    utf8DecodeCps (utf8EncodeCps vs) = some vs := by
  induction vs with
  | nil => rfl
  | cons v t ih =>
    show utf8DecodeAux .clean (utf8EncodeCp v ++ utf8EncodeCps t) = some (v :: t)
    rw [utf8DecodeAux_encodeCp v (hv v (List.mem_cons_self v t)) (utf8EncodeCps t)]
    have iht : utf8DecodeAux .clean (utf8EncodeCps t) = some t :=
      ih (fun x hx => hv x (List.mem_cons_of_mem v hx))
    rw [iht]
    rfl

/-- Every character's code point is a valid Unicode scalar value. -/
theorem char_toNat_valid (c : Char) : Nat.isValidChar c.toNat := c.valid

/-- Every character's code point is below the Unicode bound. -/
theorem char_toNat_lt (c : Char) : c.toNat < 0x110000 := by
  rcases char_toNat_valid c with h | h <;> omega

/-- Converting a valid code point to a character and back is the identity. -/
theorem toNat_ofNat_valid (v : Nat) (h : Nat.isValidChar v) :
    (Char.ofNat v).toNat = v := by
  rw [Char.ofNat, dif_pos h]
  rfl

/-- Rebuilding characters from their own code points is the identity. -/
theorem cpsToChars_map_toNat (cs : List Char) :
    cpsToChars (cs.map Char.toNat) = some cs := by
  induction cs with
  | nil => rfl
  | cons c t ih => simp [cpsToChars, char_toNat_valid c, ih, Char.ofNat_toNat]

/-- UTF-8 decoding inverts UTF-8 encoding of any string. -/
theorem utf8DecodeToString_encodeString (s : String) :
    utf8DecodeToString (utf8EncodeString s) = some s := by
  have hv : ∀ v ∈ s.data.map Char.toNat, v < 0x110000 := by
    intro v hv'
    obtain ⟨c, _, rfl⟩ := List.mem_map.mp hv'
    exact char_toNat_lt c
  rw [utf8DecodeToString, utf8EncodeString, utf8DecodeCps_encodeCps _ hv]
  simp [cpsToChars_map_toNat]

/-- Every byte of the UTF-8 encoding of an in-range code point fits a byte. -/
theorem utf8EncodeCp_bound (v : Nat) (hv : v < 0x110000) :
    ∀ b ∈ utf8EncodeCp v, b < 256 := by
  intro b hb
  rw [utf8EncodeCp] at hb
  split_ifs at hb <;> simp at hb <;> omega

/-- Every byte of the UTF-8 encoding of in-range code points fits a byte. -/
theorem utf8EncodeCps_bound (vs : List Nat) (hv : ∀ v ∈ vs, v < 0x110000) :
    ∀ b ∈ utf8EncodeCps vs, b < 256 := by
  induction vs with
  | nil =>
    intro b hb
    simp [utf8EncodeCps] at hb
  | cons v t ih =>
    intro b hb
    rw [utf8EncodeCps] at hb
    rcases List.mem_append.mp hb with h | h
    · exact utf8EncodeCp_bound v (hv v (by simp)) b h
    · exact ih (fun x hx => hv x (by simp [hx])) b h

/-- Safe bytes are ASCII and are never the escape character. -/
theorem isSafeByte_facts (b : Nat) (h : isSafeByte b = true) : b < 128 ∧ b ≠ 0x25 := by
  rw [isSafeByte] at h
  simp at h
  omega

/-- Hex digits produced by `hexDigitChar` decode back to their value. -/
theorem hexVal_hexDigitChar : ∀ n : Nat, n < 16 → hexVal (hexDigitChar n) = some n := by
  decide

/-- Percent-decoding inverts percent-encoding on any byte sequence. -/
theorem percentDecodeChars_quoteBytes (bs : List Nat) (hb : ∀ b ∈ bs, b < 256) :
    percentDecodeChars (quoteBytes bs) = some bs := by
  induction bs with
  | nil => rfl
  | cons b t ih =>
    have hbt : ∀ x ∈ t, x < 256 := fun x hx => hb x (by simp [hx])
    have hb0 : b < 256 := hb b (by simp)
    by_cases hs : isSafeByte b = true
    · obtain ⟨h128, hne⟩ := isSafeByte_facts b hs
      have htn : (Char.ofNat b).toNat = b :=
        toNat_ofNat_valid b (Or.inl (by omega))
      have hch : ¬(Char.ofNat b = '%') := by
        intro he
        apply hne
        have hco := congrArg Char.toNat he
        rw [htn] at hco
        simpa using hco
      have step1 : quoteBytes (b :: t) = Char.ofNat b :: quoteBytes t := by
        simp [quoteBytes, hs]
      rw [step1, percentDecodeChars.eq_def]
      simp [hch, ih hbt, htn]
    · have hv1 : hexVal (hexDigitChar (b / 16)) = some (b / 16) :=
        hexVal_hexDigitChar (b / 16) (by omega)
      have hv2 : hexVal (hexDigitChar (b % 16)) = some (b % 16) :=
        hexVal_hexDigitChar (b % 16) (by omega)
      have e : b / 16 * 16 + b % 16 = b := by omega
      have step1 : quoteBytes (b :: t) =
          '%' :: hexDigitChar (b / 16) :: hexDigitChar (b % 16) :: quoteBytes t := by
        simp [quoteBytes, hs]
      rw [step1, percentDecodeChars.eq_def]
      simp [hv1, hv2, ih hbt, e]

/-- Percent-decoding the quoted spec text and reading the bytes as UTF-8
gives back the original text. -/
theorem percent_roundtrip (s : String) :
    percentDecodeToText (urlQuote s) = some s := by
  have hbytes : ∀ b ∈ utf8EncodeString s, b < 256 := by
    apply utf8EncodeCps_bound
    intro v hv
    obtain ⟨c, _, rfl⟩ := List.mem_map.mp hv
    exact char_toNat_lt c
  rw [percentDecodeToText, urlQuote]
  have hdata : (String.mk (quoteBytes (utf8EncodeString s))).data =
      quoteBytes (utf8EncodeString s) := rfl
  rw [hdata, percentDecodeChars_quoteBytes _ hbytes]
  simpa using utf8DecodeToString_encodeString s

/-- Claim C2: a specification text of UTF-8 byte length strictly below 4096
routes to direct embedding with the URL `base?spec=<encoded>`, and
percent-decoding the `spec` query value yields the original text exactly. -/
theorem editor_small_spec_roundtrip (s : String) (tree : Yaml)
    (h : utf8ByteLength s < 4096) :
    editor_route s tree =
      .EmbedDirect ("https://editor-next.swagger.io/?spec=" ++ urlQuote s) ∧
    percentDecodeToText (urlQuote s) = some s := by
  refine ⟨?_, percent_roundtrip s⟩
  rw [editor_route, if_pos h]

/-- Witness for C2 at a concrete small specification. -/
theorem editor_small_spec_roundtrip_witness :
    editor_route "openapi: 3.0.0" Yaml.null =
      .EmbedDirect ("https://editor-next.swagger.io/?spec=" ++ urlQuote "openapi: 3.0.0") ∧
    percentDecodeToText (urlQuote "openapi: 3.0.0") = some "openapi: 3.0.0" :=
  editor_small_spec_roundtrip "openapi: 3.0.0" Yaml.null (by decide)

/-- Claim C3: a specification text of UTF-8 byte length 4096 or more routes
to `RequireExternalUrl`; the routing decision is the same for every parsed
tree and is exactly the comparison of the raw text's UTF-8 byte length
against the fixed 4096-byte threshold. -/
theorem editor_route_byte_threshold (s : String) (t1 t2 : Yaml) :
    (4096 ≤ utf8ByteLength s → editor_route s t1 = .RequireExternalUrl) ∧
    editor_route s t1 = editor_route s t2 ∧
    (isEmbedDirect (editor_route s t1) = true ↔ utf8ByteLength s < 4096) := by
  refine ⟨fun h => ?_, rfl, ?_⟩
  · rw [editor_route, if_neg (by omega)]
  · rw [editor_route]
    by_cases h : utf8ByteLength s < 4096
    · simp [if_pos h, isEmbedDirect, h]
    · simp [if_neg h, isEmbedDirect, h]

/-- Encoding a run of the ASCII byte 97 is the identity. -/
theorem utf8EncodeCps_replicate_a (n : Nat) :
    utf8EncodeCps (List.replicate n 97) = List.replicate n 97 := by
  induction n with
  | zero => rfl
  | succ k ih =>
    rw [List.replicate_succ, utf8EncodeCps, ih, utf8EncodeCp, if_pos (by omega)]
    rfl

/-- Byte length of a 4096-character ASCII string. -/
theorem replicate_a_byteLength :
    utf8ByteLength (String.mk (List.replicate 4096 'a')) = 4096 := by
  rw [utf8ByteLength, utf8EncodeString]
  have h1 : (String.mk (List.replicate 4096 'a')).data = List.replicate 4096 'a' := rfl
  rw [h1, List.map_replicate]
  have h2 : Char.toNat 'a' = 97 := rfl
  rw [h2, utf8EncodeCps_replicate_a, List.length_replicate]

/-- Witness for C3 at a concrete 4096-byte specification. -/
theorem editor_route_byte_threshold_witness :
    editor_route (String.mk (List.replicate 4096 'a')) Yaml.null =
      RouteResult.RequireExternalUrl :=
  (editor_route_byte_threshold (String.mk (List.replicate 4096 'a')) Yaml.null Yaml.null).1
    (by rw [replicate_a_byteLength])

end RequestCreator
